import Mathlib

/-!
Verification development for the mth308lib numerical-methods toolkit
(repository MTH_308_assignments).

The repository ships two Python files: cli.py (argument parsing, dispatch,
the restricted expression evaluator, and the main entry point) and setup.py.
The algorithmic package mth308 (root finders, quadrature rules, ODE steppers)
is imported by cli.py but its source is not part of the inspected tree, so
those algorithms are modelled from the specification text, over exact
rational arithmetic.  Definitions taken from cli.py follow that file
line by line; each doc comment says which source function it embeds.
-/

namespace MTH308

/-! ### Root finders (algorithmic core) -/

/-- Result triple shared by all five root finders: the contract
solve(f, ...) returns (root, iterations, converged). -/
structure RootResult where
  root : ℚ
  iterations : ℕ
  converged : Bool
deriving Repr, DecidableEq

/-- Internal state returned by the bracketing loops: the candidate root,
the final bracket endpoints, the iteration count and the convergence flag. -/
structure BracketOut where
  root : ℚ
  lo : ℚ
  hi : ℚ
  iterations : ℕ
  converged : Bool
deriving Repr, DecidableEq

/-- Forget the bracket, keeping the user-visible triple. -/
def BracketOut.toResult (s : BracketOut) : RootResult :=
  ⟨s.root, s.iterations, s.converged⟩

/-- Modelled from the spec: the iteration loop of bisection_method from the
unseen mth308 package.  Each iteration takes the midpoint m = (a+b)/2 and
replaces whichever endpoint shares the sign of f(m); the loop stops with
converged = true when the absolute value of f(m) is below tol or the half
width (b-a)/2 is below tol, and stops with converged = false when the
iteration budget (the fuel argument) is exhausted.  The accumulator k counts
completed halving steps. -/
def bisectAux (f : ℚ → ℚ) (tol : ℚ) : ℕ → ℚ → ℚ → ℕ → BracketOut
  | 0, a, b, k =>
    if |f ((a + b) / 2)| < tol ∨ (b - a) / 2 < tol then ⟨(a + b) / 2, a, b, k, true⟩
    else ⟨(a + b) / 2, a, b, k, false⟩
  | fuel + 1, a, b, k =>
    if |f ((a + b) / 2)| < tol ∨ (b - a) / 2 < tol then ⟨(a + b) / 2, a, b, k, true⟩
    else if f a * f ((a + b) / 2) < 0 then bisectAux f tol fuel a ((a + b) / 2) (k + 1)
    else bisectAux f tol fuel ((a + b) / 2) b (k + 1)

/-- Modelled from the spec: bisection_method from the unseen mth308 package.
Precondition f(a)*f(b) ≤ 0; a precondition failure is signalled otherwise. -/
def bisection_method (f : ℚ → ℚ) (a b tol : ℚ) (max_iter : ℕ) :
    Except String RootResult :=
  if f a * f b > 0 then
    .error "Function must have opposite signs at the bracket endpoints."
  else
    .ok (bisectAux f tol max_iter a b 0).toResult

/-- The iteration bound claimed for bisection: ceil(log2((b-a)/tol)),
expressed over the naturals via the ceiling of the rational ratio. -/
def bisectBound (a b tol : ℚ) : ℕ := Nat.clog 2 ⌈(b - a) / tol⌉₊

/-- Modelled from the spec: the iteration loop of regula_falsi from the
unseen mth308 package.  Candidate c = b - f(b)(b-a)/(f(b)-f(a)); the endpoint
with matching sign is replaced.  Converged when the absolute value of f(c)
is below tol. -/
def regulaAux (f : ℚ → ℚ) (tol : ℚ) : ℕ → ℚ → ℚ → ℕ → BracketOut
  | 0, a, b, k =>
    if |f (b - f b * (b - a) / (f b - f a))| < tol then
      ⟨b - f b * (b - a) / (f b - f a), a, b, k, true⟩
    else ⟨b - f b * (b - a) / (f b - f a), a, b, k, false⟩
  | fuel + 1, a, b, k =>
    if |f (b - f b * (b - a) / (f b - f a))| < tol then
      ⟨b - f b * (b - a) / (f b - f a), a, b, k, true⟩
    else if f a * f (b - f b * (b - a) / (f b - f a)) < 0 then
      regulaAux f tol fuel a (b - f b * (b - a) / (f b - f a)) (k + 1)
    else regulaAux f tol fuel (b - f b * (b - a) / (f b - f a)) b (k + 1)

/-- Modelled from the spec: regula_falsi from the unseen mth308 package,
with the same bracket precondition as bisection. -/
def regula_falsi (f : ℚ → ℚ) (a b tol : ℚ) (max_iter : ℕ) :
    Except String RootResult :=
  if f a * f b > 0 then
    .error "Function must have opposite signs at the bracket endpoints."
  else
    .ok (regulaAux f tol max_iter a b 0).toResult

/-- Modelled from the spec: the iteration loop of modified_regula_falsi
(Illinois-style correction) from the unseen mth308 package.  The fa and fb
arguments carry the stored endpoint values; side records which endpoint was
retained by the previous iteration (some true for the left endpoint, some
false for the right one).  When the same endpoint is retained twice in a
row its stored function value is halved. -/
def mrfAux (f : ℚ → ℚ) (tol : ℚ) :
    ℕ → ℚ → ℚ → ℚ → ℚ → Option Bool → ℕ → BracketOut
  | 0, a, b, fa, fb, _, k =>
    if |f (b - fb * (b - a) / (fb - fa))| < tol then
      ⟨b - fb * (b - a) / (fb - fa), a, b, k, true⟩
    else ⟨b - fb * (b - a) / (fb - fa), a, b, k, false⟩
  | fuel + 1, a, b, fa, fb, side, k =>
    if |f (b - fb * (b - a) / (fb - fa))| < tol then
      ⟨b - fb * (b - a) / (fb - fa), a, b, k, true⟩
    else if fa * f (b - fb * (b - a) / (fb - fa)) < 0 then
      mrfAux f tol fuel a (b - fb * (b - a) / (fb - fa))
        (if side = some true then fa / 2 else fa)
        (f (b - fb * (b - a) / (fb - fa))) (some true) (k + 1)
    else
      mrfAux f tol fuel (b - fb * (b - a) / (fb - fa)) b
        (f (b - fb * (b - a) / (fb - fa)))
        (if side = some false then fb / 2 else fb) (some false) (k + 1)

/-- Modelled from the spec: modified_regula_falsi from the unseen mth308
package, with the same bracket precondition as bisection. -/
def modified_regula_falsi (f : ℚ → ℚ) (a b tol : ℚ) (max_iter : ℕ) :
    Except String RootResult :=
  if f a * f b > 0 then
    .error "Function must have opposite signs at the bracket endpoints."
  else
    .ok (mrfAux f tol max_iter a b (f a) (f b) none 0).toResult

/-- Error message reported by the Newton-Raphson zero-derivative guard. -/
def newtonGuardMsg : String := "Derivative is zero; Newton-Raphson step undefined."

/-- Modelled from the spec: the iteration loop of newton_raphson from the
unseen mth308 package.  Update x1 = x - f(x)/fp(x); converged when the
absolute step size is below tol; a zero derivative is reported as an error
at the iteration that discovers it, before dividing. -/
def newtonAux (f fp : ℚ → ℚ) (tol : ℚ) : ℕ → ℚ → ℕ → Except String RootResult
  | 0, x, k => .ok ⟨x, k, false⟩
  | fuel + 1, x, k =>
    if fp x = 0 then .error newtonGuardMsg
    else
      if |(x - f x / fp x) - x| < tol then .ok ⟨x - f x / fp x, k + 1, true⟩
      else newtonAux f fp tol fuel (x - f x / fp x) (k + 1)

/-- Modelled from the spec: newton_raphson from the unseen mth308 package.
It requires a derivative evaluator (numeric or supplied), passed here as fp. -/
def newton_raphson (f fp : ℚ → ℚ) (x0 tol : ℚ) (max_iter : ℕ) :
    Except String RootResult :=
  newtonAux f fp tol max_iter x0 0

/-- Error message reported by the secant zero-denominator guard. -/
def secantGuardMsg : String := "Zero denominator in secant update."

/-- Modelled from the spec: the iteration loop of secant_method from the
unseen mth308 package.  Update x2 = x1 - f(x1)(x1-x0)/(f(x1)-f(x0)), with
the same zero-denominator guard as Newton. -/
def secantAux (f : ℚ → ℚ) (tol : ℚ) : ℕ → ℚ → ℚ → ℕ → Except String RootResult
  | 0, _, x1, k => .ok ⟨x1, k, false⟩
  | fuel + 1, x0, x1, k =>
    if f x1 - f x0 = 0 then .error secantGuardMsg
    else
      if |(x1 - f x1 * (x1 - x0) / (f x1 - f x0)) - x1| < tol then
        .ok ⟨x1 - f x1 * (x1 - x0) / (f x1 - f x0), k + 1, true⟩
      else secantAux f tol fuel x1 (x1 - f x1 * (x1 - x0) / (f x1 - f x0)) (k + 1)

/-- Modelled from the spec: secant_method from the unseen mth308 package. -/
def secant_method (f : ℚ → ℚ) (x0 x1 tol : ℚ) (max_iter : ℕ) :
    Except String RootResult :=
  secantAux f tol max_iter x0 x1 0

/-! ### Tolerance / iteration-budget defaults -/

/-- Modelled from the spec: the default absolute convergence threshold,
1e-8 (taken exactly, as a rational). -/
def defaultTol : ℚ := 1 / 100000000

/-- Modelled from the spec: the default iteration budget, 100. -/
def defaultMaxIter : ℕ := 100

/-- Modelled from the spec: bisection_method as called with tol and max_iter
left to their defaults. -/
def bisection_method_default (f : ℚ → ℚ) (a b : ℚ) : Except String RootResult :=
  bisection_method f a b defaultTol defaultMaxIter

/-- Modelled from the spec: regula_falsi with default tol and max_iter. -/
def regula_falsi_default (f : ℚ → ℚ) (a b : ℚ) : Except String RootResult :=
  regula_falsi f a b defaultTol defaultMaxIter

/-- Modelled from the spec: modified_regula_falsi with default tol and
max_iter. -/
def modified_regula_falsi_default (f : ℚ → ℚ) (a b : ℚ) : Except String RootResult :=
  modified_regula_falsi f a b defaultTol defaultMaxIter

/-- Modelled from the spec: newton_raphson with default tol and max_iter. -/
def newton_raphson_default (f fp : ℚ → ℚ) (x0 : ℚ) : Except String RootResult :=
  newton_raphson f fp x0 defaultTol defaultMaxIter

/-- Modelled from the spec: secant_method with default tol and max_iter. -/
def secant_method_default (f : ℚ → ℚ) (x0 x1 : ℚ) : Except String RootResult :=
  secant_method f x0 x1 defaultTol defaultMaxIter

/-! ### Quadrature rules -/

/-- Modelled from the spec: trapezoidal_rule from the unseen mth308 package.
Partitions [a,b] into n equal sub-intervals of width h = (b-a)/n and sums
h * (f(x0)/2 + f(x1) + ... + f(x_ n-1 ) + f(xn)/2). -/
def trapezoidal_rule (f : ℚ → ℚ) (a b : ℚ) (n : ℕ) : ℚ :=
  (b - a) / (n : ℚ) *
    ((f a + f b) / 2 +
      ∑ i ∈ Finset.range (n - 1), f (a + ((i : ℚ) + 1) * ((b - a) / (n : ℚ))))

/-- Modelled from the spec: simpsons_one_third from the unseen mth308
package.  Requires n even and signals an input error otherwise; on even n it
sums h/3 * (f(x0) + 4 Σ f(odd-index) + 2 Σ f(even-index, interior) + f(xn)). -/
def simpsons_one_third (f : ℚ → ℚ) (a b : ℚ) (n : ℕ) : Except String ℚ :=
  if n % 2 = 1 then
    .error "Simpson rule requires an even number of sub-intervals."
  else
    .ok ((b - a) / (n : ℚ) / 3 *
      (f a + f b +
        4 * ∑ i ∈ Finset.range (n / 2),
          f (a + (2 * (i : ℚ) + 1) * ((b - a) / (n : ℚ))) +
        2 * ∑ i ∈ Finset.range (n / 2 - 1),
          f (a + (2 * (i : ℚ) + 2) * ((b - a) / (n : ℚ)))))

/-! ### ODE steppers -/

/-- Modelled from the spec: the shared fixed-step loop of the two ODE
steppers.  It runs exactly the requested number of steps, advancing x by h
each time and y by the supplied one-step update rule, and records the whole
trajectory including the initial condition. -/
def odeAux (step : ℚ → ℚ → ℚ) (h : ℚ) : ℕ → ℚ → ℚ → List ℚ × List ℚ
  | 0, x, y => ([x], [y])
  | n + 1, x, y =>
    ((x :: (odeAux step h n (x + h) (step x y)).1),
     (y :: (odeAux step h n (x + h) (step x y)).2))

/-- Modelled from the spec: euler_method from the unseen mth308 package,
with update y1 = y + h f(x, y). -/
def euler_method (f : ℚ → ℚ → ℚ) (x0 y0 h : ℚ) (steps : ℕ) : List ℚ × List ℚ :=
  odeAux (fun x y => y + h * f x y) h steps x0 y0

/-- Modelled from the spec: the four-stage RK4 one-step update. -/
def rk4Update (f : ℚ → ℚ → ℚ) (h x y : ℚ) : ℚ :=
  y + h / 6 *
    (f x y
     + 2 * f (x + h / 2) (y + h * f x y / 2)
     + 2 * f (x + h / 2) (y + h * f (x + h / 2) (y + h * f x y / 2) / 2)
     + f (x + h) (y + h * f (x + h / 2) (y + h * f (x + h / 2) (y + h * f x y / 2) / 2)))

/-- Modelled from the spec: rk4 from the unseen mth308 package. -/
def rk4 (f : ℚ → ℚ → ℚ) (x0 y0 h : ℚ) (steps : ℕ) : List ℚ × List ℚ :=
  odeAux (rk4Update f h) h steps x0 y0

/-! ### Python expression model (cli.py, _safe_eval)

The formula strings passed on the command line are compiled by CPython in
eval mode; we embed the compiled expression as an abstract syntax tree.
Calls are restricted to a single argument, which covers every expression the
repository documents. -/

/-- Arithmetic operators available in a formula. -/
inductive PyOp where
  | add
  | sub
  | mul
  | div
  | pow
deriving Repr, DecidableEq

/-- Abstract syntax of a compiled Python expression in eval mode. -/
inductive PyExpr where
  | num (q : ℚ)
  | name (s : String)
  | attr (obj : PyExpr) (field : String)
  | call (fn : PyExpr) (arg : PyExpr)
  | binop (op : PyOp) (e1 e2 : PyExpr)
  | neg (e : PyExpr)
deriving Repr, DecidableEq

/-- The co_names tuple of the compiled code object.  CPython stores there
every non-local name the bytecode loads: both the top-level variable names
(LOAD_NAME) and the attribute names (LOAD_ATTR / LOAD_METHOD). -/
def coNames : PyExpr → List String
  | .num _ => []
  | .name s => [s]
  | .attr e fld => coNames e ++ [fld]
  | .call fn arg => coNames fn ++ coNames arg
  | .binop _ e1 e2 => coNames e1 ++ coNames e2
  | .neg e => coNames e

/-- Only the top-level variable names of the expression: the names resolved
against the evaluation globals, excluding attribute names.  This is what the
claim about _safe_eval calls the top-level names. -/
def topNames : PyExpr → List String
  | .num _ => []
  | .name s => [s]
  | .attr e _ => topNames e
  | .call fn arg => topNames fn ++ topNames arg
  | .binop _ e1 e2 => topNames e1 ++ topNames e2
  | .neg e => topNames e

/-- Run-time values a formula can produce: a number, the math module object,
or a member function of the math module. -/
inductive PyVal where
  | num (q : ℚ)
  | mathObj
  | mathFn (fname : String)
deriving Repr, DecidableEq

/-- Members of the math module that the model knows about. -/
def mathMembers : List String :=
  ["sin", "cos", "tan", "exp", "log", "sqrt", "pi", "e"]

/-- Members of the math module that are numeric constants rather than
functions. -/
def mathConsts : List String := ["pi", "e"]

/-- Look up a bound variable.  The bindings are the kwargs of _safe_eval. -/
def lookupBinding (bs : List (String × ℚ)) (s : String) : Option ℚ :=
  (bs.find? (fun p => p.1 == s)).map Prod.snd

/-- Apply an arithmetic operator.  Exact rational arithmetic stands in for
Python floats; division by zero and fractional powers are outside the scope
of every claim and fall back to the rational conventions. -/
def applyOp (op : PyOp) (q1 q2 : ℚ) : ℚ :=
  match op with
  | .add => q1 + q2
  | .sub => q1 - q2
  | .mul => q1 * q2
  | .div => q1 / q2
  | .pow => q1 ^ (q2.num.toNat)

/-- Evaluation of a compiled expression against the globals dict
built by _safe_eval, namely the math module plus the kwargs bindings
(kwargs shadow the math entry, matching the dict literal in the source).
The parameter M interprets the transcendental math-module functions and
constants, which live outside the repository. -/
def evalPy (M : String → ℚ → ℚ) (bs : List (String × ℚ)) : PyExpr → Except String PyVal
  | .num q => .ok (.num q)
  | .name s =>
    match lookupBinding bs s with
    | some q => .ok (.num q)
    | none =>
      if s = "math" then .ok .mathObj
      else .error ("name " ++ s ++ " is not defined")
  | .attr e fld =>
    match evalPy M bs e with
    | .error msg => .error msg
    | .ok .mathObj =>
      if mathMembers.contains fld then
        if mathConsts.contains fld then .ok (.num (M fld 0))
        else .ok (.mathFn fld)
      else .error ("module math has no attribute " ++ fld)
    | .ok _ => .error ("attribute " ++ fld ++ " accessed on a non-module value")
  | .call fn arg =>
    match evalPy M bs fn with
    | .error msg => .error msg
    | .ok vf =>
      match evalPy M bs arg with
      | .error msg => .error msg
      | .ok va =>
        match vf, va with
        | .mathFn nm, .num q => .ok (.num (M nm q))
        | _, _ => .error "value is not callable or argument is not a number"
  | .binop op e1 e2 =>
    match evalPy M bs e1 with
    | .error msg => .error msg
    | .ok v1 =>
      match evalPy M bs e2 with
      | .error msg => .error msg
      | .ok v2 =>
        match v1, v2 with
        | .num q1, .num q2 => .ok (.num (applyOp op q1 q2))
        | _, _ => .error "unsupported operand types"
  | .neg e =>
    match evalPy M bs e with
    | .error msg => .error msg
    | .ok (.num q) => .ok (.num (-q))
    | .ok _ => .error "bad operand type for unary minus"

/-- Embeds cli.py line 61: allowed_names is the dict holding math plus the
kwargs, so its keys are the name math plus the binding names. -/
def allowedNames (bs : List (String × ℚ)) : List String :=
  "math" :: bs.map Prod.fst

/-- Embeds the loop of cli.py lines 63-65: the first entry of co_names that
is not a key of allowed_names, if any. -/
def firstDisallowed (expr : PyExpr) (bs : List (String × ℚ)) : Option String :=
  (coNames expr).find? (fun n => !(allowedNames bs).contains n)

/-- Embeds _safe_eval (cli.py lines 55-66): compile the expression, reject
it if any entry of co_names is missing from allowed_names, otherwise
evaluate it.  The ValueError text is reproduced without its quote marks. -/
def safe_eval (M : String → ℚ → ℚ) (expr : PyExpr) (bs : List (String × ℚ)) :
    Except String PyVal :=
  match firstDisallowed expr bs with
  | some n => .error (n ++ " is not an allowed identifier in the expression.")
  | none => evalPy M bs expr

/-- Fixed interpretation of the math functions used by closed witnesses;
the theorems about _safe_eval hold for every interpretation. -/
def mathInterp0 : String → ℚ → ℚ := fun _ _ => 0

/-! ### CLI model (cli.py: parser, sub-commands, main) -/

/-- The three sub-command handlers registered through set_defaults. -/
inductive CmdTag where
  | root
  | integrate
  | ode
deriving Repr, DecidableEq

/-- The method choices of the root sub-command (cli.py line 148). -/
inductive RootMethod where
  | bisection
  | regula_falsi
  | modified_regula_falsi
  | newton
  | secant
deriving Repr, DecidableEq

/-- The method choices of the integrate sub-command (cli.py line 161). -/
inductive IntMethod where
  | trapezoidal
  | simpsons
deriving Repr, DecidableEq

/-- The method choices of the ode sub-command (cli.py line 170). -/
inductive OdeMethod where
  | euler
  | rk4
deriving Repr, DecidableEq

/-- Values an attribute of the parsed argparse Namespace can hold: a formula
string (modelled by its compiled form), a method-choice string, a float, an
integer, a sub-command handler installed by set_defaults, or None. -/
inductive AttrVal where
  | pystr (e : PyExpr)
  | pymethod (m : RootMethod)
  | pyintmethod (m : IntMethod)
  | pyodemethod (m : OdeMethod)
  | pyfloat (q : ℚ)
  | pynat (n : ℕ)
  | handler (t : CmdTag)
  | pynone
deriving Repr, DecidableEq

/-- An argparse Namespace: attribute assignments, later entries shadowed by
earlier ones. -/
abbrev PyNamespace := List (String × AttrVal)

/-- Attribute lookup on a Namespace. -/
def getAttr : PyNamespace → String → Option AttrVal
  | [], _ => none
  | (k, v) :: ns, key => if k = key then some v else getAttr ns key

/-- The command line of a root sub-command invocation: the two required
flags plus the optional numeric flags (none when the flag is absent). -/
structure RootCli where
  method : RootMethod
  func : PyExpr
  a : Option ℚ
  b : Option ℚ
  x0 : Option ℚ
  x1 : Option ℚ
  tol : Option ℚ
  max_iter : Option ℕ

/-- Defaults of the root subparser (cli.py lines 146-157): the optional
numeric flags default to None except tol (1e-8) and max-iter (100), and
set_defaults stores the _cmd_root handler under the dest func. -/
def rootDefaults : PyNamespace :=
  [("a", .pynone), ("b", .pynone), ("x0", .pynone), ("x1", .pynone),
   ("tol", .pyfloat defaultTol), ("max_iter", .pynat defaultMaxIter),
   ("func", .handler .root)]

/-- Store a command-line value over the defaults when the flag was given. -/
def applyOpt (key : String) : Option AttrVal → PyNamespace → PyNamespace
  | none, ns => ns
  | some v, ns => (key, v) :: ns

/-- Embeds parse_args for the root sub-command: argparse first installs the
defaults (including the set_defaults handler), then overwrites each dest
that appears on the command line.  The required --func flag therefore always
overwrites the handler stored under the same dest func. -/
def parseRootArgs (c : RootCli) : PyNamespace :=
  applyOpt "max_iter" (c.max_iter.map AttrVal.pynat)
    (applyOpt "tol" (c.tol.map AttrVal.pyfloat)
      (applyOpt "x1" (c.x1.map AttrVal.pyfloat)
        (applyOpt "x0" (c.x0.map AttrVal.pyfloat)
          (applyOpt "b" (c.b.map AttrVal.pyfloat)
            (applyOpt "a" (c.a.map AttrVal.pyfloat)
              (("method", AttrVal.pymethod c.method)
               :: ("func", AttrVal.pystr c.func) :: rootDefaults))))))

/-- Embeds _parse_f_of_x (cli.py lines 69-71): the callable evaluates the
expression with x bound.  The allow-list check of _safe_eval depends only on
the expression and the binding names, never on the numeric argument, so it
is performed once here; the numeric value of invocations whose evaluation
would fail at run time is outside the scope of every claim and is read as 0. -/
def exprToFunX (M : String → ℚ → ℚ) (e : PyExpr) : Except String (ℚ → ℚ) :=
  match firstDisallowed e [("x", 0)] with
  | some n => .error (n ++ " is not an allowed identifier in the expression.")
  | none =>
    .ok (fun x =>
      match evalPy M [("x", x)] e with
      | .ok (.num q) => q
      | _ => 0)

/-- Embeds _parse_f_of_x_y (cli.py lines 74-76). -/
def exprToFunXY (M : String → ℚ → ℚ) (e : PyExpr) : Except String (ℚ → ℚ → ℚ) :=
  match firstDisallowed e [("x", 0), ("y", 0)] with
  | some n => .error (n ++ " is not an allowed identifier in the expression.")
  | none =>
    .ok (fun x y =>
      match evalPy M [("x", x), ("y", y)] e with
      | .ok (.num q) => q
      | _ => 0)

/-- Modelled from the spec: the numeric derivative evaluator Newton-Raphson
requires when no derivative is supplied; the unseen library's difference
scheme is not visible, a central difference with a fixed step stands in. -/
def numDeriv (f : ℚ → ℚ) (x : ℚ) : ℚ :=
  (f (x + 1 / 1000000) - f (x - 1 / 1000000)) / (2 / 1000000)

/-- Render a Bool the way Python prints it. -/
def renderBool : Bool → String
  | true => "True"
  | false => "False"

/-- The line printed by _cmd_root (cli.py line 100). -/
def renderRoot (r : RootResult) : String :=
  "Root: " ++ toString r.root ++ "  |  iterations: " ++ toString r.iterations
    ++ "  |  converged: " ++ renderBool r.converged

/-- Read a float attribute. -/
def getFloat (ns : PyNamespace) (key : String) : Except String ℚ :=
  match getAttr ns key with
  | some (.pyfloat q) => .ok q
  | _ => .error ("unsupported operand: attribute " ++ key ++ " is not a number")

/-- Read an integer attribute. -/
def getNat (ns : PyNamespace) (key : String) : Except String ℕ :=
  match getAttr ns key with
  | some (.pynat n) => .ok n
  | _ => .error ("unsupported operand: attribute " ++ key ++ " is not an integer")

/-- Read a formula attribute. -/
def getFormula (ns : PyNamespace) (key : String) : Except String PyExpr :=
  match getAttr ns key with
  | some (.pystr e) => .ok e
  | _ => .error ("attribute " ++ key ++ " is not a formula string")

/-- Embeds _cmd_root (cli.py lines 83-100): build f from args.func, then
dispatch on args.method to the five root finders and print the result
triple.  This is the handler set_defaults intended to run. -/
def cmdRoot (M : String → ℚ → ℚ) (ns : PyNamespace) : Except String (List String) := do
  let e ← getFormula ns "func"
  let f ← exprToFunX M e
  let tol ← getFloat ns "tol"
  let mi ← getNat ns "max_iter"
  let r ←
    match getAttr ns "method" with
    | some (.pymethod RootMethod.bisection) => do
      let a ← getFloat ns "a"
      let b ← getFloat ns "b"
      bisection_method f a b tol mi
    | some (.pymethod RootMethod.regula_falsi) => do
      let a ← getFloat ns "a"
      let b ← getFloat ns "b"
      regula_falsi f a b tol mi
    | some (.pymethod RootMethod.modified_regula_falsi) => do
      let a ← getFloat ns "a"
      let b ← getFloat ns "b"
      modified_regula_falsi f a b tol mi
    | some (.pymethod RootMethod.newton) => do
      let x0 ← getFloat ns "x0"
      newton_raphson f (numDeriv f) x0 tol mi
    | some (.pymethod RootMethod.secant) => do
      let x0 ← getFloat ns "x0"
      let x1 ← getFloat ns "x1"
      secant_method f x0 x1 tol mi
    | _ => .error "Unsupported root-finding method."
  pure [renderRoot r]

/-- Embeds _cmd_integrate (cli.py lines 103-111).  The approximately-equal
sign of the printed line is rendered as the word approx. -/
def cmdIntegrate (M : String → ℚ → ℚ) (ns : PyNamespace) : Except String (List String) := do
  let e ← getFormula ns "expr"
  let f ← exprToFunX M e
  let a ← getFloat ns "a"
  let b ← getFloat ns "b"
  let n ← getNat ns "n"
  let res ←
    match getAttr ns "method" with
    | some (.pyintmethod IntMethod.trapezoidal) => .ok (trapezoidal_rule f a b n)
    | some (.pyintmethod IntMethod.simpsons) => simpsons_one_third f a b n
    | _ => .error "Unsupported integration method."
  pure ["Integral approx " ++ toString res]

/-- Embeds _cmd_ode (cli.py lines 114-124): one printed line per sample
point (tab rendered as a space). -/
def cmdOde (M : String → ℚ → ℚ) (ns : PyNamespace) : Except String (List String) := do
  let e ← getFormula ns "ode"
  let f ← exprToFunXY M e
  let x0 ← getFloat ns "x0"
  let y0 ← getFloat ns "y0"
  let h ← getFloat ns "h"
  let steps ← getNat ns "steps"
  let pr ←
    match getAttr ns "method" with
    | some (.pyodemethod OdeMethod.euler) => .ok (euler_method f x0 y0 h steps)
    | some (.pyodemethod OdeMethod.rk4) => .ok (rk4 f x0 y0 h steps)
    | _ => .error "Unsupported ODE method."
  pure ((pr.1.zip pr.2).map
    (fun p => "x = " ++ toString p.1 ++ " y = " ++ toString p.2))

/-- Dispatch from a stored handler to its implementation. -/
def runHandler (M : String → ℚ → ℚ) : CmdTag → PyNamespace → Except String (List String)
  | .root, ns => cmdRoot M ns
  | .integrate, ns => cmdIntegrate M ns
  | .ode, ns => cmdOde M ns

/-- Embeds main (cli.py lines 181-188): call args.func(args); any exception
is printed as Error: ... and the process exits with status 1, otherwise the
output is printed and the status is 0.  When the func attribute holds a
string instead of a callable, the call itself raises TypeError (the message
is reproduced without its quote marks). -/
def mainModel (M : String → ℚ → ℚ) (ns : PyNamespace) : ℕ × List String :=
  match getAttr ns "func" with
  | some (.handler t) =>
    match runHandler M t ns with
    | .ok out => (0, out)
    | .error msg => (1, ["Error: " ++ msg])
  | some (.pystr _) => (1, ["Error: str object is not callable"])
  | _ => (1, ["Error: object is not callable"])

/-- The root invocation documented in the cli.py module docstring (line 11):
mth308 root --method bisection --func x**2-2 --a 0 --b 2. -/
def rootDocExample : RootCli where
  method := RootMethod.bisection
  func := PyExpr.binop .sub (PyExpr.binop .pow (.name "x") (.num 2)) (.num 2)
  a := some 0
  b := some 2
  x0 := none
  x1 := none
  tol := none
  max_iter := none

/-- The compiled form of the expression math.sin(x) used in the cli.py
module docstring (line 15) and in the parser epilog. -/
def exprMathSinX : PyExpr := .call (.attr (.name "math") "sin") (.name "x")

/-- The compiled form of the expression math.sqrt(x). -/
def exprMathSqrtX : PyExpr := .call (.attr (.name "math") "sqrt") (.name "x")

/-- A sample function with a root at 1, used by closed witnesses. -/
def fWit : ℚ → ℚ := fun x => x - 1

/-- A parsed integrate invocation whose handler raises: Simpson with an odd
number of sub-intervals. -/
def integrateErrNs : PyNamespace :=
  [("func", .handler .integrate), ("expr", .pystr (.name "x")),
   ("method", .pyintmethod .simpsons),
   ("a", .pyfloat 0), ("b", .pyfloat 1), ("n", .pynat 3)]

/-- A parsed integrate invocation whose handler completes normally. -/
def integrateOkNs : PyNamespace :=
  [("func", .handler .integrate), ("expr", .pystr (.name "x")),
   ("method", .pyintmethod .trapezoidal),
   ("a", .pyfloat 0), ("b", .pyfloat 1), ("n", .pynat 1)]

/-! ## Helper lemmas -/

theorem getAttr_cons_ne (k key : String) (v : AttrVal) (ns : PyNamespace)
    (h : ¬ k = key) : getAttr ((k, v) :: ns) key = getAttr ns key := by
  simp [getAttr, h]

theorem getAttr_cons_eq (k : String) (v : AttrVal) (ns : PyNamespace) :
    getAttr ((k, v) :: ns) k = some v := by
  simp [getAttr]

theorem getAttr_applyOpt_ne (k key : String) (o : Option AttrVal) (ns : PyNamespace)
    (h : ¬ k = key) : getAttr (applyOpt k o ns) key = getAttr ns key := by
  cases o with
  | none => rfl
  | some v => simp [applyOpt, getAttr, h]

/-- A bisection run that ends unconverged has spent its whole budget. -/
theorem bisectAux_exhausted (f : ℚ → ℚ) (tol : ℚ) :
    ∀ (fuel : ℕ) (a b : ℚ) (k : ℕ),
      (bisectAux f tol fuel a b k).converged = false →
      (bisectAux f tol fuel a b k).iterations = k + fuel := by
  intro fuel
  induction fuel with
  | zero =>
    intro a b k h
    by_cases hc : |f ((a + b) / 2)| < tol ∨ (b - a) / 2 < tol
    · rw [bisectAux, if_pos hc] at h
      simp at h
    · rw [bisectAux, if_neg hc]
      rfl
  | succ fuel ih =>
    intro a b k h
    by_cases hc : |f ((a + b) / 2)| < tol ∨ (b - a) / 2 < tol
    · rw [bisectAux, if_pos hc] at h
      simp at h
    · rw [bisectAux, if_neg hc] at h ⊢
      by_cases hs : f a * f ((a + b) / 2) < 0
      · rw [if_pos hs] at h ⊢
        rw [ih _ _ _ h]
        omega
      · rw [if_neg hs] at h ⊢
        rw [ih _ _ _ h]
        omega

/-- A regula falsi run that ends unconverged has spent its whole budget. -/
theorem regulaAux_exhausted (f : ℚ → ℚ) (tol : ℚ) :
    ∀ (fuel : ℕ) (a b : ℚ) (k : ℕ),
      (regulaAux f tol fuel a b k).converged = false →
      (regulaAux f tol fuel a b k).iterations = k + fuel := by
  intro fuel
  induction fuel with
  | zero =>
    intro a b k h
    by_cases hc : |f (b - f b * (b - a) / (f b - f a))| < tol
    · rw [regulaAux, if_pos hc] at h
      simp at h
    · rw [regulaAux, if_neg hc]
      rfl
  | succ fuel ih =>
    intro a b k h
    by_cases hc : |f (b - f b * (b - a) / (f b - f a))| < tol
    · rw [regulaAux, if_pos hc] at h
      simp at h
    · rw [regulaAux, if_neg hc] at h ⊢
      by_cases hs : f a * f (b - f b * (b - a) / (f b - f a)) < 0
      · rw [if_pos hs] at h ⊢
        rw [ih _ _ _ h]
        omega
      · rw [if_neg hs] at h ⊢
        rw [ih _ _ _ h]
        omega

/-- A modified regula falsi run that ends unconverged has spent its whole
budget. -/
theorem mrfAux_exhausted (f : ℚ → ℚ) (tol : ℚ) :
    ∀ (fuel : ℕ) (a b fa fb : ℚ) (side : Option Bool) (k : ℕ),
      (mrfAux f tol fuel a b fa fb side k).converged = false →
      (mrfAux f tol fuel a b fa fb side k).iterations = k + fuel := by
  intro fuel
  induction fuel with
  | zero =>
    intro a b fa fb side k h
    by_cases hc : |f (b - fb * (b - a) / (fb - fa))| < tol
    · rw [mrfAux, if_pos hc] at h
      simp at h
    · rw [mrfAux, if_neg hc]
      rfl
  | succ fuel ih =>
    intro a b fa fb side k h
    by_cases hc : |f (b - fb * (b - a) / (fb - fa))| < tol
    · rw [mrfAux, if_pos hc] at h
      simp at h
    · rw [mrfAux, if_neg hc] at h ⊢
      by_cases hs : fa * f (b - fb * (b - a) / (fb - fa)) < 0
      · rw [if_pos hs] at h ⊢
        rw [ih _ _ _ _ _ _ h]
        omega
      · rw [if_neg hs] at h ⊢
        rw [ih _ _ _ _ _ _ h]
        omega

/-- A Newton run that returns normally but unconverged has spent its whole
budget. -/
theorem newtonAux_exhausted (f fp : ℚ → ℚ) (tol : ℚ) :
    ∀ (fuel : ℕ) (x : ℚ) (k : ℕ) (r : RootResult),
      newtonAux f fp tol fuel x k = .ok r → r.converged = false →
      r.iterations = k + fuel := by
  intro fuel
  induction fuel with
  | zero =>
    intro x k r h hc
    rw [newtonAux] at h
    obtain rfl := (Except.ok.inj h).symm
    rfl
  | succ fuel ih =>
    intro x k r h hc
    rw [newtonAux] at h
    by_cases hz : fp x = 0
    · rw [if_pos hz] at h
      cases h
    · rw [if_neg hz] at h
      by_cases ht : |(x - f x / fp x) - x| < tol
      · rw [if_pos ht] at h
        obtain rfl := (Except.ok.inj h).symm
        simp at hc
      · rw [if_neg ht] at h
        rw [ih _ _ _ h hc]
        omega

/-- A secant run that returns normally but unconverged has spent its whole
budget. -/
theorem secantAux_exhausted (f : ℚ → ℚ) (tol : ℚ) :
    ∀ (fuel : ℕ) (x0 x1 : ℚ) (k : ℕ) (r : RootResult),
      secantAux f tol fuel x0 x1 k = .ok r → r.converged = false →
      r.iterations = k + fuel := by
  intro fuel
  induction fuel with
  | zero =>
    intro x0 x1 k r h hc
    rw [secantAux] at h
    obtain rfl := (Except.ok.inj h).symm
    rfl
  | succ fuel ih =>
    intro x0 x1 k r h hc
    rw [secantAux] at h
    by_cases hz : f x1 - f x0 = 0
    · rw [if_pos hz] at h
      cases h
    · rw [if_neg hz] at h
      by_cases ht : |(x1 - f x1 * (x1 - x0) / (f x1 - f x0)) - x1| < tol
      · rw [if_pos ht] at h
        obtain rfl := (Except.ok.inj h).symm
        simp at hc
      · rw [if_neg ht] at h
        rw [ih _ _ _ _ h hc]
        omega

/-- The abscissa sequence of the shared ODE loop is the arithmetic
progression x0, x0 + h, ..., x0 + n h. -/
theorem odeAux_fst (step : ℚ → ℚ → ℚ) (h : ℚ) :
    ∀ (n : ℕ) (x y : ℚ),
      (odeAux step h n x y).1 = (List.range (n + 1)).map (fun i : ℕ => x + (i : ℚ) * h) := by
  intro n
  induction n with
  | zero =>
    intro x y
    simp [odeAux, List.range_succ]
  | succ n ih =>
    intro x y
    rw [odeAux]
    show x :: (odeAux step h n (x + h) (step x y)).1 = _
    rw [ih]
    conv_rhs => rw [List.range_succ_eq_map]
    rw [List.map_cons, List.map_map]
    refine List.cons_eq_cons.mpr ⟨?_, ?_⟩
    · push_cast
      ring
    refine List.map_congr_left ?_
    intro i _
    show x + h + (i : ℚ) * h = x + ((i + 1 : ℕ) : ℚ) * h
    push_cast
    ring

/-- The ordinate sequence of the shared ODE loop has one entry per sample
point. -/
theorem odeAux_snd_length (step : ℚ → ℚ → ℚ) (h : ℚ) :
    ∀ (n : ℕ) (x y : ℚ), (odeAux step h n x y).2.length = n + 1 := by
  intro n
  induction n with
  | zero => intro x y; rfl
  | succ n ih =>
    intro x y
    rw [odeAux]
    show ((y :: (odeAux step h n (x + h) (step x y)).2)).length = n + 1 + 1
    rw [List.length_cons, ih]

/-- The ordinate sequence of the shared ODE loop starts at the initial
condition. -/
theorem odeAux_snd_head (step : ℚ → ℚ → ℚ) (h : ℚ) :
    ∀ (n : ℕ) (x y : ℚ), (odeAux step h n x y).2.get? 0 = some y := by
  intro n
  cases n with
  | zero => intro x y; rfl
  | succ n => intro x y; rfl

/-- Shape of a full run of the shared ODE loop: both sequences have length
n+1, start at the initial condition, and consecutive abscissas differ by h. -/
theorem odeAux_shape (step : ℚ → ℚ → ℚ) (h : ℚ) (n : ℕ) (x y : ℚ) :
    (odeAux step h n x y).1.length = n + 1 ∧
    (odeAux step h n x y).2.length = n + 1 ∧
    (odeAux step h n x y).1.get? 0 = some x ∧
    (odeAux step h n x y).2.get? 0 = some y ∧
    (∀ i, i < n → ∃ u v,
      (odeAux step h n x y).1.get? i = some u ∧
      (odeAux step h n x y).1.get? (i + 1) = some v ∧ v - u = h) := by
  refine ⟨?_, odeAux_snd_length step h n x y, ?_, odeAux_snd_head step h n x y, ?_⟩
  · rw [odeAux_fst, List.length_map, List.length_range]
  · rw [odeAux_fst, List.get?_map, List.get?_range (by omega)]
    simp
  · intro i hi
    refine ⟨x + (i : ℚ) * h, x + ((i + 1 : ℕ) : ℚ) * h, ?_, ?_, by push_cast; ring⟩
    · rw [odeAux_fst, List.get?_map, List.get?_range (by omega)]
      rfl
    · rw [odeAux_fst, List.get?_map, List.get?_range (by omega)]
      rfl

/-- Bisection keeps a non-degenerate bracket and always reports its
midpoint as the candidate root. -/
theorem bisectAux_bracket (f : ℚ → ℚ) (tol : ℚ) :
    ∀ (fuel : ℕ) (a b : ℚ) (k : ℕ), a < b →
      (bisectAux f tol fuel a b k).lo < (bisectAux f tol fuel a b k).hi ∧
      (bisectAux f tol fuel a b k).root =
        ((bisectAux f tol fuel a b k).lo + (bisectAux f tol fuel a b k).hi) / 2 := by
  intro fuel
  induction fuel with
  | zero =>
    intro a b k hab
    by_cases hc : |f ((a + b) / 2)| < tol ∨ (b - a) / 2 < tol
    · rw [bisectAux, if_pos hc]
      exact ⟨hab, rfl⟩
    · rw [bisectAux, if_neg hc]
      exact ⟨hab, rfl⟩
  | succ fuel ih =>
    intro a b k hab
    by_cases hc : |f ((a + b) / 2)| < tol ∨ (b - a) / 2 < tol
    · rw [bisectAux, if_pos hc]
      exact ⟨hab, rfl⟩
    · rw [bisectAux, if_neg hc]
      by_cases hs : f a * f ((a + b) / 2) < 0
      · rw [if_pos hs]
        exact ih a ((a + b) / 2) (k + 1) (by linarith)
      · rw [if_neg hs]
        exact ih ((a + b) / 2) b (k + 1) (by linarith)

/-- Bisection converges within j extra halving steps whenever the current
bracket width is below tol * 2^(j+1): each step halves the width, so the
half-width stopping rule must fire before the budget j runs out. -/
theorem bisectAux_budget_converges (f : ℚ → ℚ) (tol : ℚ) (htol : 0 < tol) :
    ∀ (fuel j : ℕ) (a b : ℚ) (k : ℕ), j ≤ fuel → b - a < tol * 2 ^ (j + 1) →
      (bisectAux f tol fuel a b k).converged = true ∧
      (bisectAux f tol fuel a b k).iterations ≤ k + j ∧
      (|f (bisectAux f tol fuel a b k).root| < tol ∨
        ((bisectAux f tol fuel a b k).hi - (bisectAux f tol fuel a b k).lo) / 2
          < tol) := by
  intro fuel
  induction fuel with
  | zero =>
    intro j a b k hj hw
    have hj0 : j = 0 := Nat.le_zero.mp hj
    subst hj0
    have hcond : (b - a) / 2 < tol := by
      have h2 : tol * (2 : ℚ) ^ (0 + 1) = 2 * tol := by ring
      rw [h2] at hw
      linarith
    rw [bisectAux, if_pos (Or.inr hcond)]
    exact ⟨rfl, Nat.le_add_right _ _, Or.inr hcond⟩
  | succ fuel ih =>
    intro j a b k hj hw
    by_cases hc : |f ((a + b) / 2)| < tol ∨ (b - a) / 2 < tol
    · rw [bisectAux, if_pos hc]
      exact ⟨rfl, Nat.le_add_right _ _, hc⟩
    · have hwid : tol ≤ (b - a) / 2 := by
        by_contra hlt
        exact hc (Or.inr (lt_of_not_le hlt))
      obtain ⟨j', rfl⟩ : ∃ j', j = j' + 1 := by
        cases j with
        | zero =>
          exfalso
          have h2 : tol * (2 : ℚ) ^ (0 + 1) = 2 * tol := by ring
          rw [h2] at hw
          linarith
        | succ j' => exact ⟨j', rfl⟩
      have hj' : j' ≤ fuel := Nat.succ_le_succ_iff.mp hj
      have hhalf : (b - a) / 2 < tol * 2 ^ (j' + 1) := by
        have hp : tol * (2 : ℚ) ^ (j' + 1 + 1) = tol * 2 ^ (j' + 1) * 2 := by
          ring
        rw [hp] at hw
        linarith
      rw [bisectAux, if_neg hc]
      by_cases hs : f a * f ((a + b) / 2) < 0
      · rw [if_pos hs]
        have hrec := ih j' a ((a + b) / 2) (k + 1) hj' (by linarith [hhalf])
        refine ⟨hrec.1, ?_, hrec.2.2⟩
        have := hrec.2.1
        omega
      · rw [if_neg hs]
        have hrec := ih j' ((a + b) / 2) b (k + 1) hj' (by linarith [hhalf])
        refine ⟨hrec.1, ?_, hrec.2.2⟩
        have := hrec.2.1
        omega

/-! ## Claims -/

/-- C3: for every valid bracket with opposite signs, positive tolerance and
an iteration budget of at least ceil(log2((b-a)/tol)) = bisectBound,
bisection returns normally with converged = true, a root r satisfying
either the absolute value of f(r) below tol or a final post-split bracket
of width below tol (r is the midpoint of the final stored bracket, whose
half width is below tol), r inside the final bracket, and an iteration
count of at most bisectBound. -/
theorem c3_bisection_converges_within_log_bound (f : ℚ → ℚ) (a b tol : ℚ)
    (max_iter : ℕ) (htol : 0 < tol) (hab : a < b) (hsign : f a * f b < 0)
    (hbudget : bisectBound a b tol ≤ max_iter) :
    bisection_method f a b tol max_iter =
      .ok (bisectAux f tol max_iter a b 0).toResult ∧
    (bisectAux f tol max_iter a b 0).converged = true ∧
    (|f (bisectAux f tol max_iter a b 0).root| < tol ∨
      ((bisectAux f tol max_iter a b 0).hi - (bisectAux f tol max_iter a b 0).lo)
        / 2 < tol) ∧
    (bisectAux f tol max_iter a b 0).lo ≤ (bisectAux f tol max_iter a b 0).root ∧
    (bisectAux f tol max_iter a b 0).root ≤ (bisectAux f tol max_iter a b 0).hi ∧
    (bisectAux f tol max_iter a b 0).iterations ≤ bisectBound a b tol := by
  have hq : (b - a) / tol ≤ ((2 : ℕ) ^ bisectBound a b tol : ℚ) := by
    calc (b - a) / tol ≤ (⌈(b - a) / tol⌉₊ : ℚ) := Nat.le_ceil _
    _ ≤ ((2 : ℕ) ^ bisectBound a b tol : ℚ) := by
        exact_mod_cast Nat.le_pow_clog one_lt_two _
  have hw : b - a < tol * 2 ^ (bisectBound a b tol + 1) := by
    have h1 : b - a ≤ tol * 2 ^ bisectBound a b tol := by
      rw [div_le_iff htol] at hq
      push_cast at hq
      linarith
    have hpos : 0 < tol * 2 ^ bisectBound a b tol := by positivity
    have h2 : tol * (2 : ℚ) ^ (bisectBound a b tol + 1) =
        2 * (tol * 2 ^ bisectBound a b tol) := by ring
    rw [h2]
    linarith
  have hmain := bisectAux_budget_converges f tol htol max_iter
    (bisectBound a b tol) a b 0 hbudget hw
  have hbr := bisectAux_bracket f tol max_iter a b 0 hab
  refine ⟨?_, hmain.1, hmain.2.2, ?_, ?_, ?_⟩
  · rw [bisection_method, if_neg (not_lt.mpr (le_of_lt hsign))]
  · rw [hbr.2]
    linarith [hbr.1]
  · rw [hbr.2]
    linarith [hbr.1]
  · have := hmain.2.1
    omega

/-- Closed witness for C3: the bracket (0, 2) for f(x) = x - 1 at tol = 2,
where the bound bisectBound 0 2 2 is zero and the very first midpoint
converges. -/
theorem c3_bisection_converges_within_log_bound_witness :
    bisection_method fWit 0 2 2 0 = .ok (bisectAux fWit 2 0 0 2 0).toResult ∧
    (bisectAux fWit 2 0 0 2 0).converged = true ∧
    (|fWit (bisectAux fWit 2 0 0 2 0).root| < 2 ∨
      ((bisectAux fWit 2 0 0 2 0).hi - (bisectAux fWit 2 0 0 2 0).lo) / 2 < 2) ∧
    (bisectAux fWit 2 0 0 2 0).lo ≤ (bisectAux fWit 2 0 0 2 0).root ∧
    (bisectAux fWit 2 0 0 2 0).root ≤ (bisectAux fWit 2 0 0 2 0).hi ∧
    (bisectAux fWit 2 0 0 2 0).iterations ≤ bisectBound 0 2 2 :=
  c3_bisection_converges_within_log_bound fWit 0 2 2 0 (by norm_num)
    (by norm_num) (by norm_num [fWit])
    (by rw [bisectBound]; norm_num [Nat.clog_one_right])

/-- C2: each of the five root finders terminates normally once its
iteration budget is exhausted without meeting the tolerance, returning
converged = false with the current iterate and an iteration count equal to
max_iter.  The three bracketing methods return normally for every input
satisfying the bracket precondition; Newton and secant may instead report
their zero-denominator guard mid-run, and whenever they do return normally
with converged = false the budget was fully spent. -/
theorem c2_exhaustion_returns_unconverged :
    (∀ (f : ℚ → ℚ) (a b tol : ℚ) (m : ℕ), f a * f b ≤ 0 →
      ∃ r, bisection_method f a b tol m = .ok r ∧
        (r.converged = false → r.iterations = m)) ∧
    (∀ (f : ℚ → ℚ) (a b tol : ℚ) (m : ℕ), f a * f b ≤ 0 →
      ∃ r, regula_falsi f a b tol m = .ok r ∧
        (r.converged = false → r.iterations = m)) ∧
    (∀ (f : ℚ → ℚ) (a b tol : ℚ) (m : ℕ), f a * f b ≤ 0 →
      ∃ r, modified_regula_falsi f a b tol m = .ok r ∧
        (r.converged = false → r.iterations = m)) ∧
    (∀ (f fp : ℚ → ℚ) (x0 tol : ℚ) (m : ℕ) (r : RootResult),
      newton_raphson f fp x0 tol m = .ok r → r.converged = false →
        r.iterations = m) ∧
    (∀ (f : ℚ → ℚ) (x0 x1 tol : ℚ) (m : ℕ) (r : RootResult),
      secant_method f x0 x1 tol m = .ok r → r.converged = false →
        r.iterations = m) := by
  refine ⟨?_, ?_, ?_, ?_, ?_⟩
  · intro f a b tol m h
    refine ⟨(bisectAux f tol m a b 0).toResult, ?_, ?_⟩
    · rw [bisection_method, if_neg (not_lt.mpr h)]
    · intro hc
      have := bisectAux_exhausted f tol m a b 0 hc
      simpa [BracketOut.toResult] using this
  · intro f a b tol m h
    refine ⟨(regulaAux f tol m a b 0).toResult, ?_, ?_⟩
    · rw [regula_falsi, if_neg (not_lt.mpr h)]
    · intro hc
      have := regulaAux_exhausted f tol m a b 0 hc
      simpa [BracketOut.toResult] using this
  · intro f a b tol m h
    refine ⟨(mrfAux f tol m a b (f a) (f b) none 0).toResult, ?_, ?_⟩
    · rw [modified_regula_falsi, if_neg (not_lt.mpr h)]
    · intro hc
      have := mrfAux_exhausted f tol m a b (f a) (f b) none 0 hc
      simpa [BracketOut.toResult] using this
  · intro f fp x0 tol m r h hc
    simpa using newtonAux_exhausted f fp tol m x0 0 r h hc
  · intro f x0 x1 tol m r h hc
    simpa using secantAux_exhausted f tol m x0 x1 0 r h hc

/-- C4: both ODE steppers return two sequences of length exactly steps+1
whose first entries are the initial condition, with consecutive abscissas
always h apart. -/
theorem c4_ode_trajectory_shape (f : ℚ → ℚ → ℚ) (x0 y0 h : ℚ) (steps : ℕ) :
    ((euler_method f x0 y0 h steps).1.length = steps + 1 ∧
     (euler_method f x0 y0 h steps).2.length = steps + 1 ∧
     (euler_method f x0 y0 h steps).1.get? 0 = some x0 ∧
     (euler_method f x0 y0 h steps).2.get? 0 = some y0 ∧
     (∀ i, i < steps → ∃ u v,
       (euler_method f x0 y0 h steps).1.get? i = some u ∧
       (euler_method f x0 y0 h steps).1.get? (i + 1) = some v ∧ v - u = h)) ∧
    ((rk4 f x0 y0 h steps).1.length = steps + 1 ∧
     (rk4 f x0 y0 h steps).2.length = steps + 1 ∧
     (rk4 f x0 y0 h steps).1.get? 0 = some x0 ∧
     (rk4 f x0 y0 h steps).2.get? 0 = some y0 ∧
     (∀ i, i < steps → ∃ u v,
       (rk4 f x0 y0 h steps).1.get? i = some u ∧
       (rk4 f x0 y0 h steps).1.get? (i + 1) = some v ∧ v - u = h)) :=
  ⟨odeAux_shape (fun x y => y + h * f x y) h steps x0 y0,
   odeAux_shape (rk4Update f h) h steps x0 y0⟩

/-- Closed witness for C4: the abscissa increment of an Euler run with two
steps. -/
theorem c4_ode_trajectory_shape_witness :
    ∃ u v,
      (euler_method (fun _ y => y) 0 1 (1 / 2) 2).1.get? 0 = some u ∧
      (euler_method (fun _ y => y) 0 1 (1 / 2) 2).1.get? 1 = some v ∧
      v - u = 1 / 2 :=
  (c4_ode_trajectory_shape (fun _ y => y) 0 1 (1 / 2) 2).1.2.2.2.2 0 (by norm_num)

/-- Closed witness for C2: a valid bracket for bisection at a tiny budget,
and a concrete unconverged secant run. -/
theorem c2_exhaustion_returns_unconverged_witness :
    (∃ r, bisection_method fWit 0 2 1 5 = .ok r ∧
      (r.converged = false → r.iterations = 5)) ∧
    (∃ r, regula_falsi fWit 0 2 1 5 = .ok r ∧
      (r.converged = false → r.iterations = 5)) ∧
    (∃ r, modified_regula_falsi fWit 0 2 1 5 = .ok r ∧
      (r.converged = false → r.iterations = 5)) ∧
    RootResult.iterations ⟨-1, 1, false⟩ = 1 :=
  ⟨c2_exhaustion_returns_unconverged.1 fWit 0 2 1 5 (by norm_num [fWit]),
   c2_exhaustion_returns_unconverged.2.1 fWit 0 2 1 5 (by norm_num [fWit]),
   c2_exhaustion_returns_unconverged.2.2.1 fWit 0 2 1 5 (by norm_num [fWit]),
   c2_exhaustion_returns_unconverged.2.2.2.2 (fun x => x * x + 1) 0 1 1 1
     ⟨-1, 1, false⟩ (by with_unfolding_all rfl) rfl⟩

/-- C1: the claim says a root sub-command invocation with a valid method
name dispatches to the corresponding algorithm and renders the returned
triple.  In the code the required --func flag shares the argparse dest with
the handler stored by set_defaults, so parsing always overwrites the
handler with the formula string and main raises TypeError on every root
invocation; evaluated here at the invocation documented in the module
docstring. -/
theorem c1_root_subcommand_always_type_errors :
    ∀ M : String → ℚ → ℚ,
      mainModel M (parseRootArgs rootDocExample) =
        (1, ["Error: str object is not callable"]) := by
  intro M
  rfl

/-- C5: Simpson's 1/3 rule signals an input error and produces no numeric
result for every odd n, and returns an approximation whenever n is even. -/
theorem c5_simpson_requires_even_n (f : ℚ → ℚ) (a b : ℚ) (n : ℕ) :
    (n % 2 = 1 → ∃ msg, simpsons_one_third f a b n = .error msg) ∧
    (n % 2 = 0 → ∃ q, simpsons_one_third f a b n = .ok q) := by
  constructor
  · intro h
    exact ⟨_, by rw [simpsons_one_third, if_pos h]⟩
  · intro h
    exact ⟨_, by rw [simpsons_one_third, if_neg (by omega)]⟩

/-- Closed witness for C5 at n = 3 (odd) and n = 4 (even). -/
theorem c5_simpson_requires_even_n_witness :
    (∃ msg, simpsons_one_third fWit 0 1 3 = .error msg) ∧
    (∃ q, simpsons_one_third fWit 0 1 4 = .ok q) :=
  ⟨(c5_simpson_requires_even_n fWit 0 1 3).1 (by decide),
   (c5_simpson_requires_even_n fWit 0 1 4).2 (by decide)⟩

/-- C6: Newton-Raphson reports a failure (an error value, not a crash and
not a silent division) at any iteration whose derivative is zero, and the
secant method applies the same guard when its finite-difference denominator
f(x1) - f(x0) is zero; stated both for an arbitrary iteration of the loop
and for the entry points. -/
theorem c6_zero_denominator_guards :
    (∀ (f fp : ℚ → ℚ) (tol x : ℚ) (k fuel : ℕ), fp x = 0 →
      newtonAux f fp tol (fuel + 1) x k = .error newtonGuardMsg) ∧
    (∀ (f fp : ℚ → ℚ) (x0 tol : ℚ) (m : ℕ), fp x0 = 0 → 0 < m →
      newton_raphson f fp x0 tol m = .error newtonGuardMsg) ∧
    (∀ (f : ℚ → ℚ) (tol x0 x1 : ℚ) (k fuel : ℕ), f x1 - f x0 = 0 →
      secantAux f tol (fuel + 1) x0 x1 k = .error secantGuardMsg) ∧
    (∀ (f : ℚ → ℚ) (x0 x1 tol : ℚ) (m : ℕ), f x1 - f x0 = 0 → 0 < m →
      secant_method f x0 x1 tol m = .error secantGuardMsg) := by
  refine ⟨?_, ?_, ?_, ?_⟩
  · intro f fp tol x k fuel h
    simp [newtonAux, h]
  · intro f fp x0 tol m h hm
    obtain ⟨m', rfl⟩ := Nat.exists_eq_succ_of_ne_zero (Nat.pos_iff_ne_zero.mp hm)
    simp [newton_raphson, newtonAux, h]
  · intro f tol x0 x1 k fuel h
    simp [secantAux, h]
  · intro f x0 x1 tol m h hm
    obtain ⟨m', rfl⟩ := Nat.exists_eq_succ_of_ne_zero (Nat.pos_iff_ne_zero.mp hm)
    simp [secant_method, secantAux, h]

/-- Closed witness for C6: a flat derivative for Newton and a constant
function for the secant denominator. -/
theorem c6_zero_denominator_guards_witness :
    newton_raphson fWit (fun _ => 0) 1 1 3 = .error newtonGuardMsg ∧
    secant_method (fun _ => 5) 0 1 1 3 = .error secantGuardMsg :=
  ⟨c6_zero_denominator_guards.2.1 fWit (fun _ => 0) 1 1 3 rfl (by norm_num),
   c6_zero_denominator_guards.2.2.2 (fun _ => 5) 0 1 1 3 (by norm_num) (by norm_num)⟩

/-- C7: the claim says an expression referencing only the bound variables
plus the math namespace evaluates to a number.  The code stores attribute
names in co_names as well, so the documented integrand math.sin(x) with x
bound is rejected with a disallowed-identifier error before any evaluation,
for every interpretation of the math library. -/
theorem c7_safe_eval_rejects_documented_example :
    ∀ M : String → ℚ → ℚ,
      safe_eval M exprMathSinX [("x", 0)] =
        .error "sin is not an allowed identifier in the expression." := by
  intro M
  rfl

/-- C10 counterexample: the expression math.sqrt(x) with binding x has all
its top-level names inside the allow-list, yet _safe_eval rejects it
instead of evaluating it, because the attribute name sqrt also sits in
co_names.  So the check does not inspect only top-level names, and
attribute accesses through the math object are not admitted. -/
theorem c10_top_level_subset_not_evaluated :
    ((topNames exprMathSqrtX).all
        (fun n => (allowedNames [("x", 2)]).contains n) = true) ∧
    safe_eval mathInterp0 exprMathSqrtX [("x", 2)] =
      .error "sqrt is not an allowed identifier in the expression." := by
  exact ⟨by decide, rfl⟩

/-- C10 as amended: the allow-list check of _safe_eval inspects every entry
of co_names — top-level names and attribute names alike — and admits the
name math unconditionally; an expression is evaluated exactly when all of
its co_names lie in the bindings plus math, otherwise the first offending
name is reported before any evaluation. -/
theorem c10_conames_allowlist_characterization :
    (∀ bs : List (String × ℚ), "math" ∈ allowedNames bs) ∧
    (∀ (M : String → ℚ → ℚ) (e : PyExpr) (bs : List (String × ℚ)),
      ((coNames e).all (fun n => (allowedNames bs).contains n) = true →
        safe_eval M e bs = evalPy M bs e) ∧
      ((∃ n ∈ coNames e, n ∉ allowedNames bs) →
        ∃ bad, bad ∈ coNames e ∧ bad ∉ allowedNames bs ∧
          safe_eval M e bs =
            .error (bad ++ " is not an allowed identifier in the expression."))) := by
  constructor
  · intro bs
    exact List.mem_cons_self _ _
  · intro M e bs
    constructor
    · intro hall
      have hnone : firstDisallowed e bs = none := by
        rw [firstDisallowed, List.find?_eq_none]
        intro n hn
        have := List.all_eq_true.mp hall n hn
        simp only [Bool.not_eq_true', Bool.not_eq_false]
        exact this
      rw [safe_eval, hnone]
    · intro ⟨n, hn, hnallow⟩
      have hsome : ∃ bad, firstDisallowed e bs = some bad := by
        rw [firstDisallowed]
        have hex : ∃ x ∈ coNames e, (!(allowedNames bs).contains x) = true :=
          ⟨n, hn, by simpa using hnallow⟩
        exact Option.isSome_iff_exists.mp (List.find?_isSome.mpr hex)
      obtain ⟨bad, hbad⟩ := hsome
      refine ⟨bad, List.mem_of_find?_eq_some hbad, ?_, ?_⟩
      · have := List.find?_some hbad
        simpa using this
      · rw [safe_eval, hbad]

/-- Closed witness for C10 as amended: x*x with x bound evaluates, and the
rejection branch fires for math.sqrt(x). -/
theorem c10_conames_allowlist_witness :
    safe_eval mathInterp0 (PyExpr.binop .mul (.name "x") (.name "x")) [("x", 3)] =
      evalPy mathInterp0 [("x", 3)] (PyExpr.binop .mul (.name "x") (.name "x")) ∧
    (∃ bad, bad ∈ coNames exprMathSqrtX ∧ bad ∉ allowedNames [("x", 2)] ∧
      safe_eval mathInterp0 exprMathSqrtX [("x", 2)] =
        .error (bad ++ " is not an allowed identifier in the expression.")) :=
  ⟨((c10_conames_allowlist_characterization.2 mathInterp0
      (PyExpr.binop .mul (.name "x") (.name "x")) [("x", 3)]).1 (by decide)),
   ((c10_conames_allowlist_characterization.2 mathInterp0
      exprMathSqrtX [("x", 2)]).2 ⟨"sqrt", by decide, by decide⟩)⟩

/-- C8: whenever the dispatched sub-command raises, main prints the error
message and exits with status 1; when the sub-command completes normally
the exit status is 0 and its output is printed. -/
theorem c8_main_error_handling (M : String → ℚ → ℚ) (ns : PyNamespace)
    (t : CmdTag) (h : getAttr ns "func" = some (.handler t)) :
    (∀ msg, runHandler M t ns = .error msg →
      mainModel M ns = (1, ["Error: " ++ msg])) ∧
    (∀ out, runHandler M t ns = .ok out → mainModel M ns = (0, out)) := by
  constructor
  · intro msg hm
    simp [mainModel, h, hm]
  · intro out ho
    simp [mainModel, h, ho]

/-- Closed witness for C8: an integrate invocation that raises (Simpson
with odd n) exits 1 with the printed error, and one that completes
(trapezoidal) exits 0. -/
theorem c8_main_error_handling_witness :
    mainModel mathInterp0 integrateErrNs =
      (1, ["Error: Simpson rule requires an even number of sub-intervals."]) ∧
    mainModel mathInterp0 integrateOkNs = (0, ["Integral approx 1/2"]) :=
  ⟨(c8_main_error_handling mathInterp0 integrateErrNs .integrate rfl).1 _ rfl,
   (c8_main_error_handling mathInterp0 integrateOkNs .integrate rfl).2 _
     (by with_unfolding_all rfl)⟩

/-- C9: when tol and max_iter are not supplied, the parsed namespace of a
root invocation carries the defaults tol = 1e-8 and max_iter = 100, and
each root finder called with the defaults left in place receives exactly
those values for that call. -/
theorem c9_defaults_per_call :
    defaultTol = 1 / 100000000 ∧ defaultMaxIter = 100 ∧
    (∀ c : RootCli, c.tol = none →
      getAttr (parseRootArgs c) "tol" = some (.pyfloat (1 / 100000000))) ∧
    (∀ c : RootCli, c.max_iter = none →
      getAttr (parseRootArgs c) "max_iter" = some (.pynat 100)) ∧
    (∀ f a b, bisection_method_default f a b =
      bisection_method f a b (1 / 100000000) 100) ∧
    (∀ f a b, regula_falsi_default f a b =
      regula_falsi f a b (1 / 100000000) 100) ∧
    (∀ f a b, modified_regula_falsi_default f a b =
      modified_regula_falsi f a b (1 / 100000000) 100) ∧
    (∀ f fp x0, newton_raphson_default f fp x0 =
      newton_raphson f fp x0 (1 / 100000000) 100) ∧
    (∀ f x0 x1, secant_method_default f x0 x1 =
      secant_method f x0 x1 (1 / 100000000) 100) := by
  refine ⟨rfl, rfl, ?_, ?_, fun f a b => rfl, fun f a b => rfl, fun f a b => rfl,
    fun f fp x0 => rfl, fun f x0 x1 => rfl⟩
  · intro c h
    rw [parseRootArgs, h]
    rw [getAttr_applyOpt_ne _ _ _ _ (by decide)]
    show getAttr (applyOpt "tol" (Option.map AttrVal.pyfloat none) _) "tol" = _
    rw [Option.map_none']
    show getAttr (applyOpt "tol" none _) "tol" = _
    rw [applyOpt]
    rw [getAttr_applyOpt_ne _ _ _ _ (by decide)]
    rw [getAttr_applyOpt_ne _ _ _ _ (by decide)]
    rw [getAttr_applyOpt_ne _ _ _ _ (by decide)]
    rw [getAttr_applyOpt_ne _ _ _ _ (by decide)]
    rw [getAttr_cons_ne _ _ _ _ (by decide)]
    rw [getAttr_cons_ne _ _ _ _ (by decide)]
    rfl
  · intro c h
    rw [parseRootArgs, h]
    show getAttr (applyOpt "max_iter" (Option.map AttrVal.pynat none) _) "max_iter" = _
    rw [Option.map_none']
    show getAttr (applyOpt "max_iter" none _) "max_iter" = _
    rw [applyOpt]
    rw [getAttr_applyOpt_ne _ _ _ _ (by decide)]
    rw [getAttr_applyOpt_ne _ _ _ _ (by decide)]
    rw [getAttr_applyOpt_ne _ _ _ _ (by decide)]
    rw [getAttr_applyOpt_ne _ _ _ _ (by decide)]
    rw [getAttr_applyOpt_ne _ _ _ _ (by decide)]
    rw [getAttr_cons_ne _ _ _ _ (by decide)]
    rw [getAttr_cons_ne _ _ _ _ (by decide)]
    rfl

/-- Closed witness for C9 at the documented root invocation, which leaves
tol and max-iter to their defaults. -/
theorem c9_defaults_per_call_witness :
    getAttr (parseRootArgs rootDocExample) "tol" =
      some (.pyfloat (1 / 100000000)) ∧
    getAttr (parseRootArgs rootDocExample) "max_iter" = some (.pynat 100) :=
  ⟨c9_defaults_per_call.2.2.1 rootDocExample rfl,
   c9_defaults_per_call.2.2.2.1 rootDocExample rfl⟩

end MTH308
